import Mathlib

/-!
# gnc-gconf-utils.c : key paths, enum nicknames, bulk unset, notifications

A shallow embedding of `src/core-utils/gnc-gconf-utils.c`.

* A C string is the list of its characters before the terminating NUL
  (`CStr`); a nullable `const gchar *` is an `Option CStr`.
* The GLib / libc / GConf primitives the file calls (`g_strdup`,
  `g_strdup_printf`, `g_strjoin`, `strncmp`, `index`, `g_enum_get_value`,
  `gconf_client_unset`, ...) are modelled after their documented behaviour.
* Stateful code (the configuration store, the per-object data table) is
  written in explicit state-passing style.
* The C parameter `section` is written `section_`, the word being reserved.
-/

namespace GncGConf

/-! ## C strings and the library primitives used by the key-path builder -/

/-- The characters of a C string, terminator excluded. -/
abbrev CStr := List Char

/-- The terminating NUL character. -/
def NUL : Char := Char.ofNat 0

/-- The C expression `*s` : the first character, or NUL at the end of the string. -/
def deref : CStr → Char
  | [] => NUL
  | c :: _ => c

/-- The C expression `sizeof(lit)` for a string literal: its length plus the terminator. -/
def sizeof_lit (lit : CStr) : Nat := lit.length + 1

/-- GLib `g_strdup` on a non-null string: a fresh copy with the same contents. -/
def g_strdup (s : CStr) : CStr := s

/-- GLib `g_strdup_printf` (and the formatting part of `printf`) for formats
whose only directives are `%s`: ordinary characters are copied, each `%s` is
replaced by the next string argument. -/
def g_strdup_printf : CStr → List CStr → CStr
  | [], _ => []
  | [c], _ => [c]
  | c :: d :: rest, args =>
    if c = '%' ∧ d = 's' then
      match args with
      | [] => g_strdup_printf rest []
      | a :: more => a ++ g_strdup_printf rest more
    else c :: g_strdup_printf (d :: rest) args

/-- GLib `g_strjoin (separator, s1, ..., NULL)`: the strings joined with the
separator between consecutive ones; a NULL separator is the empty string. -/
def g_strjoin (separator : Option CStr) : List CStr → CStr
  | [] => []
  | [s] => s
  | s :: t :: rest => s ++ separator.getD [] ++ g_strjoin separator (t :: rest)

/-- The libc `strncmp (a, b, n)`: compares at most `n` characters, the
terminators included, and stops at the first difference or at a terminator.
The result is the difference of the first differing characters (0 when equal). -/
def strncmp : CStr → CStr → Nat → Int
  | _, _, 0 => 0
  | [], [], _ + 1 => 0
  | [], b :: _, _ + 1 => 0 - (b.toNat : Int)
  | a :: _, [], _ + 1 => (a.toNat : Int)
  | a :: as, b :: bs, n + 1 =>
    if a = b then strncmp as bs n else (a.toNat : Int) - (b.toNat : Int)

/-- The macro `APP_GNUCASH`. -/
def APP_GNUCASH : CStr := "/apps/gnucash/%s".toList

/-- The literal `"/schemas"`. -/
def SCHEMAS : CStr := "/schemas".toList

/-- The application root prefix `/apps/gnucash/`. -/
def APP_ROOT : CStr := "/apps/gnucash/".toList

/-! ## Key-path builder -/

/-- Source function `gnc_gconf_section_name` (lines 111-126). -/
def gnc_gconf_section_name (name : CStr) : CStr :=
  if deref name = '/' then
    g_strdup name
  else
    g_strdup_printf APP_GNUCASH [name]

/-- Source function `gnc_gconf_schema_section_name` (lines 128-143). -/
def gnc_gconf_schema_section_name (name : CStr) : CStr :=
  if strncmp name SCHEMAS (sizeof_lit SCHEMAS) = 0 then
    g_strdup name
  else
    g_strdup_printf (SCHEMAS ++ APP_GNUCASH) [name]

/-- Source function `gnc_gconf_make_key` (lines 145-174).  `none` is the failed `g_assert`
when both arguments are NULL. -/
def gnc_gconf_make_key (section_ name : Option CStr) : Option CStr :=
  match section_, name with
  | none, none => none
  | none, some name =>
    if deref name = '/' then some (g_strdup name)
    else some (gnc_gconf_section_name name)
  | some section_, none =>
    if deref section_ = '/' then some (g_strdup section_)
    else some (gnc_gconf_section_name section_)
  | some section_, some name =>
    if deref section_ = '/' then
      if deref name = '/' then some (g_strjoin none [section_, name])
      else some (g_strjoin (some ['/']) [section_, name])
    else
      let section_path := gnc_gconf_section_name section_
      let key := g_strjoin (some ['/']) [section_path, name]
      some key

/-- Source function `gnc_gconf_make_schema_key` (lines 177-188). -/
def gnc_gconf_make_schema_key (section_ name : Option CStr) : Option CStr :=
  match section_, name with
  | none, none => none
  | _, _ => (gnc_gconf_make_key section_ name).map (fun intermediate => SCHEMAS ++ intermediate)

/-- The reference definition of the key path, following the specification's
five cases (the both-NULL case is outside the specification's domain). -/
def make_key_reference (section_ name : Option CStr) : CStr :=
  match section_, name with
  | none, none => []
  | none, some name => gnc_gconf_section_name name
  | some section_, none => gnc_gconf_section_name section_
  | some section_, some name =>
    if section_.head? = some '/' then
      if name.head? = some '/' then section_ ++ name
      else section_ ++ "/".toList ++ name
    else "/apps/gnucash/".toList ++ section_ ++ "/".toList ++ name

/-- The string `s` contains the two-character sequence `//`. -/
def hasDoubleSlash : CStr → Bool
  | [] => false
  | [_] => false
  | c :: d :: rest => (c == '/' && d == '/') || hasDoubleSlash (d :: rest)

/-! ## Enum utilities -/

/-- A GLib `GEnumValue`: numeric value, full name and nickname. -/
structure GEnumValue where
  value : Int
  value_name : CStr
  value_nick : CStr
  deriving DecidableEq, Repr

/-- A GLib `GEnumClass`: its `values` array, the terminating entry excluded. -/
abbrev GEnumClass := List GEnumValue

/-- GLib `g_enum_get_value`: the first entry of the class with the given value. -/
def g_enum_get_value (enum_class : GEnumClass) (value : Int) : Option GEnumValue :=
  enum_class.find? (fun e => decide (e.value = value))

/-- GLib `g_enum_get_value_by_nick`: the first entry of the class whose
nickname compares equal (`strcmp`) to the given one. -/
def g_enum_get_value_by_nick (enum_class : GEnumClass) (nick : CStr) : Option GEnumValue :=
  enum_class.find? (fun e => decide (nick = e.value_nick))

/-- How a call can go wrong at run time. -/
inductive Fault where
  | null_dereference
  deriving DecidableEq, Repr

/-- Source function `gnc_enum_to_nick` (lines 41-61).  The argument `type` is the result of
`g_type_class_ref`: `none` when the type cannot be resolved.  The returned
pointer is nullable; reading `enum_value->value_nick` through a NULL
`enum_value` is a fault. -/
def gnc_enum_to_nick (type : Option GEnumClass) (value : Int) : Except Fault (Option CStr) :=
  match type with
  | none => .ok none
  | some enum_class =>
    let enum_value := g_enum_get_value enum_class value
    let enum_value :=
      match enum_value with
      | none => g_enum_get_value enum_class 0
      | some e => some e
    match enum_value with
    | none => .error Fault.null_dereference
    | some e => .ok (some e.value_nick)

/-- The libc `index (s, c)` for a character `c` other than NUL: the offset of
the first occurrence of `c` in `s`, or `none` (NULL) when there is none. -/
def index : CStr → Char → Option Nat
  | [], _ => none
  | a :: rest, c => if a = c then some 0 else (index rest c).map (· + 1)

/-- The call `index (ptr, c)` where `ptr` points at offset `ptr` of the buffer
`buf`; the result is again an offset into `buf`. -/
def index_at (buf : CStr) (ptr : Nat) (c : Char) : Option Nat :=
  (index (buf.drop ptr) c).map (· + ptr)

/-- The loop `do { *ptr++ = new; } while ((ptr = index(ptr, old)) != NULL);`
of lines 87-89 and 91-93, on the buffer `buf` with `ptr` an offset into it.
The first argument bounds the number of iterations; `none` means the bound
was reached before the loop ended. -/
def flip_loop (old new : Char) : Nat → CStr → Nat → Option CStr
  | 0, _, _ => none
  | fuel + 1, buf, ptr =>
    let buf := buf.set ptr new
    let ptr := ptr + 1
    match index_at buf ptr old with
    | none => some buf
    | some ptr => flip_loop old new fuel buf ptr

/-- Lines 99-104 of `gnc_enum_from_nick`: the second lookup, with the alternate name. -/
def lookup_alt (enum_class : GEnumClass) (alt_name : CStr) (default_value : Int) : Int :=
  match g_enum_get_value_by_nick enum_class alt_name with
  | some enum_value => enum_value.value
  | none => default_value

/-- Source function `gnc_enum_from_nick` (lines 63-105), for a non-null `name`.  The argument
`type` is the result of `g_type_class_ref`.  Each loop runs at most once per
character of the name, which is the iteration bound given to `flip_loop`;
`none` would mean a loop did not end within that bound. -/
def gnc_enum_from_nick (type : Option GEnumClass) (name : CStr) (default_value : Int) :
    Option Int :=
  match type with
  | none => some default_value
  | some enum_class =>
    match g_enum_get_value_by_nick enum_class name with
    | some enum_value => some enum_value.value
    | none =>
      let alt_name := g_strdup name
      match index alt_name '-' with
      | some ptr =>
        (flip_loop '-' '_' alt_name.length alt_name ptr).map
          (fun alt_name => lookup_alt enum_class alt_name default_value)
      | none =>
        match index alt_name '_' with
        | some ptr =>
          (flip_loop '_' '-' alt_name.length alt_name ptr).map
            (fun alt_name => lookup_alt enum_class alt_name default_value)
        | none => some default_value

/-- The value registered for a nickname in an enum table, if any. -/
def registered (enum_class : GEnumClass) (nick : CStr) : Option Int :=
  (g_enum_get_value_by_nick enum_class nick).map (fun e => e.value)

/-- The nickname registered for a value in an enum table, if any. -/
def nick_of (enum_class : GEnumClass) (value : Int) : Option CStr :=
  (g_enum_get_value enum_class value).map (fun e => e.value_nick)

/-- The specification's `swap`: every `-` replaced by `_` and every `_`
replaced by `-` throughout the name. -/
def swap_spec (name : CStr) : CStr :=
  name.map (fun c => if c = '-' then '_' else if c = '_' then '-' else c)

/-- The specification's reading of `gnc_enum_from_nick`: the value registered
for the name, else the value registered for `swap_spec name`, else the default. -/
def enum_from_nick_spec (type : Option GEnumClass) (name : CStr) (default_value : Int) : Int :=
  match type with
  | none => default_value
  | some enum_class =>
    match registered enum_class name with
    | some v => v
    | none =>
      match registered enum_class (swap_spec name) with
      | some v => v
      | none => default_value

/-- Every occurrence of the character `old` replaced by `new`. -/
def replace_all (old new : Char) (s : CStr) : CStr :=
  s.map (fun c => if c = old then new else c)

/-- The alternate name the code looks up: dashes become underscores when the
name has a dash; otherwise underscores become dashes when it has one;
otherwise there is no alternate name. -/
def alt_name_of (name : CStr) : Option CStr :=
  if '-' ∈ name then some (replace_all '-' '_' name)
  else if '_' ∈ name then some (replace_all '_' '-' name)
  else none

/-- What `gnc_enum_from_nick` computes: the value registered for the name, else
the value registered for the alternate name `alt_name_of name` when there is
one, else the default. -/
def enum_from_nick_amended (type : Option GEnumClass) (name : CStr) (default_value : Int) : Int :=
  match type with
  | none => default_value
  | some enum_class =>
    match registered enum_class name with
    | some v => v
    | none =>
      match alt_name_of name with
      | none => default_value
      | some alt =>
        match registered enum_class alt with
        | some v => v
        | none => default_value

/-- An enum table whose only nickname mixes the two conventions the other way
round from the name "a-b_c". -/
def mixed_swapped_class : GEnumClass := [⟨5, "MIXED".toList, "a_b-c".toList⟩]

/-- An enum table whose only nickname, "a-b_c", mixes the two conventions. -/
def mixed_class : GEnumClass := [⟨5, "MIXED".toList, "a-b_c".toList⟩]

/-- An enum table with a dashed nickname. -/
def dashed_class : GEnumClass := [⟨3, "DASHED".toList, "a-b".toList⟩]

/-- An enum table in which no symbol has the value 0. -/
def no_zero_class : GEnumClass := [⟨1, "ONE".toList, "one".toList⟩]

/-- An enum table with a symbol for the value 0. -/
def with_zero_class : GEnumClass :=
  [⟨0, "ZERO".toList, "zero".toList⟩, ⟨1, "ONE".toList, "one".toList⟩]

/-! ## The configuration store, as seen by the bulk unset -/

/-- A GLib `GError`, reduced to its message. -/
structure GError where
  message : CStr
  deriving DecidableEq, Repr

/-- A `GConfEntry`: a key path with its value (kept as text). -/
structure GConfEntry where
  key : CStr
  value : CStr
  deriving DecidableEq, Repr

/-- The GConf store behind `our_client`.  `values` are the entries currently
set.  The store is an external collaborator: what it answers to
`gconf_client_all_entries` for a directory and whether its unset of a key
fails are parameters (`all_entries_reply`, `unset_reply`, an error meaning
failure).  `unset_calls` records the keys on which `gconf_client_unset` was
called, in call order. -/
structure GConfClient where
  values : List GConfEntry
  all_entries_reply : CStr → List GConfEntry × Option GError
  unset_reply : CStr → Option GError
  unset_calls : List CStr

/-- The state `gnc_gconf_unset_dir` runs in: the default client of the
process, whether the static `our_client` has been initialised, and what has
been printed on standard output. -/
structure World where
  client : GConfClient
  our_client_set : Bool
  stdout : List CStr

/-- GConf `gconf_client_all_entries (client, dir, &error)`. -/
def gconf_client_all_entries (c : GConfClient) (dir : CStr) : List GConfEntry × Option GError :=
  c.all_entries_reply dir

/-- GConf `gconf_client_unset (client, key, &error)`: on success the key is
removed from the store and the result is TRUE; on failure the store is left
alone, the result is FALSE and the error is set. -/
def gconf_client_unset (c : GConfClient) (key : CStr) : GConfClient × Bool × Option GError :=
  match c.unset_reply key with
  | none =>
    ({ c with values := c.values.filter (fun e => decide (e.key ≠ key)),
              unset_calls := c.unset_calls ++ [key] }, true, none)
  | some err =>
    ({ c with unset_calls := c.unset_calls ++ [key] }, false, some err)

/-- GLib `g_propagate_error (dest, src)` for a non-null `dest`: the error is
stored in the slot when the slot is empty; a slot that already holds an error
keeps it. -/
def g_propagate_error (dest : Option GError) (src : GError) : Option GError :=
  match dest with
  | none => some src
  | some e => some e

/-- The libc `printf`, for `%s` directives: the formatted text is appended to the output. -/
def printf (out : List CStr) (format : CStr) (args : List CStr) : List CStr :=
  out ++ [g_strdup_printf format args]

/-- The failure branch shared by lines 488-494 and 501-506: the error goes to
the caller's slot when one was supplied (`caller_error = some slot`), and is
printed otherwise. -/
def report_error (caller_error : Option (Option GError)) (format : CStr) (key : CStr)
    (error : GError) (w : World) : World × Option (Option GError) :=
  match caller_error with
  | some slot => (w, some (g_propagate_error slot error))
  | none => ({ w with stdout := printf w.stdout format [key, error.message] }, none)

/-- The loop of lines 498-509 over the fetched entries. -/
def unset_loop (caller_error : Option (Option GError)) :
    List GConfEntry → World → World × Option (Option GError)
  | [], w => (w, caller_error)
  | tmp :: rest, w =>
    let key := tmp.key
    match gconf_client_unset w.client key with
    | (c, true, _) => unset_loop caller_error rest { w with client := c }
    | (c, false, error) =>
      report_error caller_error "Failed to unset key %s: %s".toList key
        (error.getD ⟨[]⟩) { w with client := c }

/-- Source function `gnc_gconf_unset_dir` (lines 472-513).  `caller_error` is `none` when the
caller passes no error slot and `some slot` otherwise; the result carries the
final content of that slot.  The result is `none` when `section` is NULL (the
`g_assert` of `gnc_gconf_make_key`).  Line 491 prints `dir_key` after line 486
freed it; the model prints the contents it had. -/
def gnc_gconf_unset_dir (section_ : Option CStr) (caller_error : Option (Option GError))
    (w : World) : Option (World × Option (Option GError)) :=
  let w := { w with our_client_set := true }
  match gnc_gconf_make_key section_ none with
  | none => none
  | some dir_key =>
    match gconf_client_all_entries w.client dir_key with
    | (_, some error) =>
      some (report_error caller_error
        "Failed to get directory entries for key %s: %s".toList dir_key error w)
    | (entries, none) => some (unset_loop caller_error entries w)

/-- The keys of the longest prefix of the entries whose unset succeeds. -/
def unset_ok_keys (reply : CStr → Option GError) (entries : List GConfEntry) : List CStr :=
  (entries.takeWhile (fun e => (reply e.key).isNone)).map (fun e => e.key)

/-- The first entry whose unset fails, with the error the store reports for it. -/
def first_failure (reply : CStr → Option GError) (entries : List GConfEntry) :
    Option (CStr × GError) :=
  match entries.dropWhile (fun e => (reply e.key).isNone) with
  | [] => none
  | e :: _ => (reply e.key).map (fun err => (e.key, err))

/-- The store entries left after unsetting the given keys. -/
def remove_keys (values : List GConfEntry) (keys : List CStr) : List GConfEntry :=
  values.filter (fun e => decide (e.key ∉ keys))

/-- The keys on which the claim says unset is attempted: those of the
successful prefix, then the first failing key if there is one. -/
def attempted_keys (reply : CStr → Option GError) (entries : List GConfEntry) : List CStr :=
  unset_ok_keys reply entries ++
    match first_failure reply entries with
    | some (k, _) => [k]
    | none => []

/-- The caller's error slot after the loop: untouched without a failure,
otherwise the failure's error propagated into the slot when one was supplied. -/
def expected_slot (caller_error : Option (Option GError)) (failure : Option (CStr × GError)) :
    Option (Option GError) :=
  match failure with
  | none => caller_error
  | some (_, err) => caller_error.map (fun slot => g_propagate_error slot err)

/-- The text printed by the loop: the failure's message when no slot was supplied. -/
def expected_log (caller_error : Option (Option GError)) (failure : Option (CStr × GError)) :
    List CStr :=
  match caller_error, failure with
  | none, some (k, err) => ["Failed to unset key ".toList ++ k ++ ": ".toList ++ err.message]
  | _, _ => []

/-- The three entries A, B, C of the section "/a". -/
def abc_entries : List GConfEntry :=
  [⟨"/a/A".toList, "1".toList⟩, ⟨"/a/B".toList, "2".toList⟩, ⟨"/a/C".toList, "3".toList⟩]

/-- A store holding A, B, C under "/a", in which the unset of B fails. -/
def abc_world : World :=
  { client :=
      { values := abc_entries
        all_entries_reply := fun _ => (abc_entries, none)
        unset_reply := fun k => if k = "/a/B".toList then some ⟨"locked".toList⟩ else none
        unset_calls := [] }
    our_client_set := false
    stdout := [] }

/-! ## Notification registration -/

/-- A pointer stored with `g_object_set_data`: the store handle, or an unsigned
integer packed with `GUINT_TO_POINTER`.  NULL is `none`. -/
inductive Pointer where
  | client
  | uint (n : Nat)
  deriving DecidableEq, Repr

/-- A call made on the store handle. -/
inductive StoreCall where
  | add_dir (path : CStr)
  | notify_add (path : CStr)
  | notify_remove (id : Nat)
  | remove_dir (path : CStr)
  | unref
  deriving DecidableEq, Repr

/-- The state the notification functions act on: the per-object data table
(object, tag) to pointer; the store's watched directories (one occurrence per
`add_dir`) and subscriptions (id and path); the next subscription id; the
reference count of the store handle; the store's answers to `add_dir` and
`notify_add` for a path (an error meaning failure); the calls made on the
handle so far; and the text printed. -/
structure NState where
  object_data : List ((Nat × CStr) × Pointer)
  dirs : List CStr
  notifies : List (Nat × CStr)
  next_id : Nat
  refs : Nat
  add_dir_reply : CStr → Option GError
  notify_add_reply : CStr → Option GError
  calls : List StoreCall
  stdout : List CStr

/-- The macro `CLIENT_TAG`. -/
def CLIENT_TAG : CStr := "%s-client".toList

/-- The macro `NOTIFY_TAG`. -/
def NOTIFY_TAG : CStr := "%s-notify_id".toList

/-- GLib `GUINT_TO_POINTER`: zero is the NULL pointer. -/
def GUINT_TO_POINTER (n : Nat) : Option Pointer :=
  if n = 0 then none else some (Pointer.uint n)

/-- GLib `GPOINTER_TO_UINT`. -/
def GPOINTER_TO_UINT : Option Pointer → Nat
  | some (Pointer.uint n) => n
  | _ => 0

/-- GLib `g_object_get_data`: the pointer stored under the key, NULL if none. -/
def g_object_get_data (s : NState) (object : Nat) (key : CStr) : Option Pointer :=
  (s.object_data.find? (fun e => decide (e.1 = (object, key)))).map (fun e => e.2)

/-- GLib `g_object_set_data`: replaces the association for the key; storing
NULL removes it. -/
def g_object_set_data (s : NState) (object : Nat) (key : CStr) (data : Option Pointer) : NState :=
  let others := s.object_data.filter (fun e => decide (e.1 ≠ (object, key)))
  match data with
  | none => { s with object_data := others }
  | some p => { s with object_data := ((object, key), p) :: others }

/-- GConf `gconf_client_get_default`: the process-wide handle, with one more reference. -/
def gconf_client_get_default (s : NState) : NState :=
  { s with refs := s.refs + 1 }

/-- GLib `g_object_unref` on the store handle. -/
def g_object_unref (s : NState) : NState :=
  { s with refs := s.refs - 1, calls := s.calls ++ [StoreCall.unref] }

/-- GConf `gconf_client_add_dir`: on success the directory gets one more watch. -/
def gconf_client_add_dir (s : NState) (path : CStr) : NState × Option GError :=
  let s := { s with calls := s.calls ++ [StoreCall.add_dir path] }
  match s.add_dir_reply path with
  | some err => (s, some err)
  | none => ({ s with dirs := path :: s.dirs }, none)

/-- GConf `gconf_client_remove_dir`: drops one watch of the directory, if there is one. -/
def gconf_client_remove_dir (s : NState) (path : CStr) : NState :=
  { s with dirs := s.dirs.erase path, calls := s.calls ++ [StoreCall.remove_dir path] }

/-- GConf `gconf_client_notify_add`: on success a new subscription with a
fresh non-zero id; on failure the id is 0 and the error is set. -/
def gconf_client_notify_add (s : NState) (path : CStr) : NState × Nat × Option GError :=
  let s := { s with calls := s.calls ++ [StoreCall.notify_add path] }
  match s.notify_add_reply path with
  | some err => (s, 0, some err)
  | none =>
    let id := s.next_id + 1
    ({ s with notifies := (id, path) :: s.notifies, next_id := id }, id, none)

/-- GConf `gconf_client_notify_remove`: cancels the subscription with the given id. -/
def gconf_client_notify_remove (s : NState) (id : Nat) : NState :=
  { s with notifies := s.notifies.filter (fun n => decide (n.1 ≠ id)),
           calls := s.calls ++ [StoreCall.notify_remove id] }

/-- Source function `gnc_gconf_add_notification` (lines 532-585).  `object` is `none` when the
argument is not a GObject, `section_` and `callback` are nullable. -/
def gnc_gconf_add_notification (object : Option Nat) (section_ : Option CStr)
    (callback : Option Nat) (s : NState) : NState :=
  match object, section_, callback with
  | some object, some section_, some _ =>
    let s := gconf_client_get_default s
    let path := gnc_gconf_section_name section_
    match gconf_client_add_dir s path with
    | (s, some error) =>
      let out := printf s.stdout
        "Failed to add history section to watched directories in gconf: %s".toList
        [error.message]
      let s := { s with stdout := out }
      g_object_unref s
    | (s, none) =>
      match gconf_client_notify_add s path with
      | (s, _, some error) =>
        let out := printf s.stdout
          "Failed to set gconf notify for history section: %s".toList [error.message]
        let s := { s with stdout := out }
        let s := gconf_client_remove_dir s path
        g_object_unref s
      | (s, id, none) =>
        let client_tag := g_strdup_printf CLIENT_TAG [section_]
        let notify_tag := g_strdup_printf NOTIFY_TAG [section_]
        let s := g_object_set_data s object client_tag (some Pointer.client)
        g_object_set_data s object notify_tag (GUINT_TO_POINTER id)
  | _, _, _ => s

/-- Source function `gnc_gconf_remove_notification` (lines 635-662). -/
def gnc_gconf_remove_notification (object : Option Nat) (section_ : Option CStr)
    (s : NState) : NState :=
  match object, section_ with
  | some object, some section_ =>
    let client_tag := g_strdup_printf CLIENT_TAG [section_]
    let client := g_object_get_data s object client_tag
    let path := gnc_gconf_section_name section_
    match client with
    | some _ =>
      let notify_tag := g_strdup_printf NOTIFY_TAG [section_]
      let id := GPOINTER_TO_UINT (g_object_get_data s object notify_tag)
      let s := gconf_client_notify_remove s id
      let s := gconf_client_remove_dir s path
      g_object_unref s
    | none => s
  | _, _ => s

/-- No entry of the per-object table belongs to the listener and section:
neither the client tag nor the notify tag is present. -/
def no_side_table_entry (s : NState) (object : Nat) (section_ : CStr) : Prop :=
  g_object_get_data s object (section_ ++ "-client".toList) = none ∧
  g_object_get_data s object (section_ ++ "-notify_id".toList) = none

/-- What the specification's state consists of: the side table, the store's
subscriptions and its watched directories. -/
def observable (s : NState) : List ((Nat × CStr) × Pointer) × List (Nat × CStr) × List CStr :=
  (s.object_data, s.notifies, s.dirs)

/-- A state in which the directory of the section "general" already has one
watch (held by another registration), the handle has two references, and the
store accepts every request. -/
def busy_state : NState :=
  { object_data := []
    dirs := ["/apps/gnucash/general".toList]
    notifies := []
    next_id := 0
    refs := 2
    add_dir_reply := fun _ => none
    notify_add_reply := fun _ => none
    calls := []
    stdout := [] }

/-- The state `busy_state` after listener 7 registered for "general". -/
def busy_added : NState :=
  gnc_gconf_add_notification (some 7) (some "general".toList) (some 1) busy_state

/-- The state `busy_added` after listener 7 removed its registration. -/
def busy_removed : NState :=
  gnc_gconf_remove_notification (some 7) (some "general".toList) busy_added

/-- The state `busy_removed` after a second removal with the same arguments. -/
def busy_removed_twice : NState :=
  gnc_gconf_remove_notification (some 7) (some "general".toList) busy_removed

/-! ## Basic facts about the primitives -/

theorem deref_eq_slash_iff (s : CStr) : deref s = '/' ↔ s.head? = some '/' := by
  cases s with
  | nil => simp [deref, NUL]
  | cons c t => simp [deref]

theorem printf_app_gnucash (name : CStr) :
    g_strdup_printf APP_GNUCASH [name] = APP_ROOT ++ name := by
  simp [APP_GNUCASH, APP_ROOT, g_strdup_printf]

theorem section_name_abs (name : CStr) (h : name.head? = some '/') :
    gnc_gconf_section_name name = name := by
  simp [gnc_gconf_section_name, (deref_eq_slash_iff name).2 h, g_strdup]

theorem section_name_rel (name : CStr) (h : name.head? ≠ some '/') :
    gnc_gconf_section_name name = APP_ROOT ++ name := by
  have : ¬ deref name = '/' := fun hd => h ((deref_eq_slash_iff name).1 hd)
  simp [gnc_gconf_section_name, this, printf_app_gnucash]

theorem strjoin_two (sep : Option CStr) (a b : CStr) :
    g_strjoin sep [a, b] = a ++ sep.getD [] ++ b := by
  simp [g_strjoin]

/-! ## Key paths: C1, C2, C3, C9, C10 -/

/-- C1: for every section and name that are not both NULL, `gnc_gconf_make_key`
returns the key given by the five-case reference definition; in particular
("foo","bar") gives "/apps/gnucash/foo/bar", ("/foo","/bar") gives "/foo/bar"
and ("/foo","bar") gives "/foo/bar". -/
theorem make_key_refines_reference (section_ name : Option CStr)
    (h : section_ ≠ none ∨ name ≠ none) :
    gnc_gconf_make_key section_ name = some (make_key_reference section_ name) ∧
    gnc_gconf_make_key (some "foo".toList) (some "bar".toList)
      = some "/apps/gnucash/foo/bar".toList ∧
    gnc_gconf_make_key (some "/foo".toList) (some "/bar".toList) = some "/foo/bar".toList ∧
    gnc_gconf_make_key (some "/foo".toList) (some "bar".toList) = some "/foo/bar".toList := by
  refine ⟨?_, by decide, by decide, by decide⟩
  cases section_ with
  | none =>
    cases name with
    | none => simp at h
    | some n =>
      by_cases hn : n.head? = some '/'
      · simp [gnc_gconf_make_key, make_key_reference, (deref_eq_slash_iff n).2 hn,
          section_name_abs n hn, g_strdup]
      · have hd : ¬ deref n = '/' := fun hd => hn ((deref_eq_slash_iff n).1 hd)
        simp [gnc_gconf_make_key, make_key_reference, hd]
  | some sct =>
    cases name with
    | none =>
      by_cases hs : sct.head? = some '/'
      · simp [gnc_gconf_make_key, make_key_reference, (deref_eq_slash_iff sct).2 hs,
          section_name_abs sct hs, g_strdup]
      · have hd : ¬ deref sct = '/' := fun hd => hs ((deref_eq_slash_iff sct).1 hd)
        simp [gnc_gconf_make_key, make_key_reference, hd]
    | some n =>
      by_cases hs : sct.head? = some '/'
      · by_cases hn : n.head? = some '/'
        · simp [gnc_gconf_make_key, make_key_reference, (deref_eq_slash_iff sct).2 hs,
            (deref_eq_slash_iff n).2 hn, hs, hn, strjoin_two]
        · have hd : ¬ deref n = '/' := fun hd => hn ((deref_eq_slash_iff n).1 hd)
          simp [gnc_gconf_make_key, make_key_reference, (deref_eq_slash_iff sct).2 hs,
            hd, hs, hn, strjoin_two]
      · have hd : ¬ deref sct = '/' := fun hd => hs ((deref_eq_slash_iff sct).1 hd)
        simp [gnc_gconf_make_key, make_key_reference, hd, hs, strjoin_two,
          section_name_rel sct hs, APP_ROOT]

/-- C1, at the input ("foo", NULL). -/
theorem make_key_refines_reference_witness :
    ((some "foo".toList : Option CStr) ≠ none ∨ (none : Option CStr) ≠ none) ∧
    gnc_gconf_make_key (some "foo".toList) none
      = some (make_key_reference (some "foo".toList) none) :=
  ⟨Or.inl (by simp), (make_key_refines_reference (some "foo".toList) none (Or.inl (by simp))).1⟩

/-- C2: `gnc_gconf_section_name` returns a name that starts with `/` unchanged,
and any other name (the empty one included) prefixed with "/apps/gnucash/". -/
theorem section_name_spec (name : CStr) :
    gnc_gconf_section_name name =
      if name.head? = some '/' then name else "/apps/gnucash/".toList ++ name := by
  by_cases h : name.head? = some '/'
  · simp [h, section_name_abs name h]
  · simp [h, section_name_rel name h, APP_ROOT]

/-- C3 (the code departs from the claim): for the name
"/schemas/apps/gnucash/general", which starts with "/schemas",
`gnc_gconf_schema_section_name` does not return the name unchanged but
prefixes the schema root a second time. -/
theorem schema_section_name_reprefixes :
    gnc_gconf_schema_section_name "/schemas/apps/gnucash/general".toList
      = "/schemas/apps/gnucash//schemas/apps/gnucash/general".toList ∧
    gnc_gconf_schema_section_name "/schemas/apps/gnucash/general".toList
      ≠ "/schemas/apps/gnucash/general".toList ∧
    strncmp "/schemas/apps/gnucash/general".toList SCHEMAS (sizeof_lit SCHEMAS) ≠ 0 ∧
    strncmp "/schemas/apps/gnucash/general".toList SCHEMAS (sizeof_lit SCHEMAS - 1) = 0 := by
  decide

/-- C9: for every section and name that are not both NULL the key is a
non-empty string, and when none of the supplied strings starts with `/` the
key starts with "/apps/gnucash/". -/
theorem make_key_invariant (section_ name : Option CStr)
    (h : section_ ≠ none ∨ name ≠ none) :
    ∃ key, gnc_gconf_make_key section_ name = some key ∧ key ≠ [] ∧
      ((∀ s, section_ = some s → s.head? ≠ some '/') →
       (∀ n, name = some n → n.head? ≠ some '/') →
       "/apps/gnucash/".toList <+: key) := by
  cases section_ with
  | none =>
    cases name with
    | none => simp at h
    | some n =>
      by_cases hn : n.head? = some '/'
      · refine ⟨n, ?_, ?_, ?_⟩
        · simp [gnc_gconf_make_key, (deref_eq_slash_iff n).2 hn, g_strdup]
        · intro hnil; simp [hnil] at hn
        · intro _ h2; exact absurd hn (h2 n rfl)
      · have hd : ¬ deref n = '/' := fun hd => hn ((deref_eq_slash_iff n).1 hd)
        refine ⟨APP_ROOT ++ n, ?_, ?_, ?_⟩
        · simp [gnc_gconf_make_key, hd, section_name_rel n hn]
        · simp [APP_ROOT]
        · intro _ _; exact List.prefix_append _ _
  | some sct =>
    cases name with
    | none =>
      by_cases hs : sct.head? = some '/'
      · refine ⟨sct, ?_, ?_, ?_⟩
        · simp [gnc_gconf_make_key, (deref_eq_slash_iff sct).2 hs, g_strdup]
        · intro hnil; simp [hnil] at hs
        · intro h1 _; exact absurd hs (h1 sct rfl)
      · have hd : ¬ deref sct = '/' := fun hd => hs ((deref_eq_slash_iff sct).1 hd)
        refine ⟨APP_ROOT ++ sct, ?_, ?_, ?_⟩
        · simp [gnc_gconf_make_key, hd, section_name_rel sct hs]
        · simp [APP_ROOT]
        · intro _ _; exact List.prefix_append _ _
    | some n =>
      by_cases hs : sct.head? = some '/'
      · have hne : sct ≠ [] := by intro hnil; simp [hnil] at hs
        by_cases hn : n.head? = some '/'
        · refine ⟨sct ++ n, ?_, ?_, ?_⟩
          · simp [gnc_gconf_make_key, (deref_eq_slash_iff sct).2 hs,
              (deref_eq_slash_iff n).2 hn, strjoin_two]
          · simp [hne]
          · intro h1 _; exact absurd hs (h1 sct rfl)
        · have hd : ¬ deref n = '/' := fun hd => hn ((deref_eq_slash_iff n).1 hd)
          refine ⟨sct ++ ['/'] ++ n, ?_, ?_, ?_⟩
          · simp [gnc_gconf_make_key, (deref_eq_slash_iff sct).2 hs, hd, strjoin_two]
          · simp
          · intro h1 _; exact absurd hs (h1 sct rfl)
      · have hd : ¬ deref sct = '/' := fun hd => hs ((deref_eq_slash_iff sct).1 hd)
        refine ⟨APP_ROOT ++ (sct ++ ['/'] ++ n), ?_, ?_, ?_⟩
        · simp [gnc_gconf_make_key, hd, strjoin_two, section_name_rel sct hs]
        · simp [APP_ROOT]
        · intro _ _; exact List.prefix_append _ _

/-- C9, at the input (NULL, "bar"). -/
theorem make_key_invariant_witness :
    ((none : Option CStr) ≠ none ∨ (some "bar".toList : Option CStr) ≠ none) ∧
    ∃ key, gnc_gconf_make_key none (some "bar".toList) = some key ∧ key ≠ [] ∧
      ((∀ s, (none : Option CStr) = some s → s.head? ≠ some '/') →
       (∀ n, (some "bar".toList : Option CStr) = some n → n.head? ≠ some '/') →
       "/apps/gnucash/".toList <+: key) :=
  ⟨Or.inr (by simp), make_key_invariant none (some "bar".toList) (Or.inr (by simp))⟩

/-- C10 (the code departs from the claim): section "foo" and name "/bar" are
non-empty, neither contains "//" and the section does not end with `/`, yet
the key is "/apps/gnucash/foo//bar", which contains "//"; with the absolute
section "/foo" the same name is joined without a separator. -/
theorem make_key_double_slash :
    hasDoubleSlash "foo".toList = false ∧ hasDoubleSlash "/bar".toList = false ∧
    "foo".toList.getLast? ≠ some '/' ∧
    gnc_gconf_make_key (some "foo".toList) (some "/bar".toList)
      = some "/apps/gnucash/foo//bar".toList ∧
    hasDoubleSlash "/apps/gnucash/foo//bar".toList = true ∧
    gnc_gconf_make_key (some "/foo".toList) (some "/bar".toList) = some "/foo/bar".toList := by
  decide

/-! ## Enum utilities: the flip loops -/

theorem index_none_iff (s : CStr) (c : Char) : index s c = none ↔ c ∉ s := by
  induction s with
  | nil => simp [index]
  | cons a rest ih =>
    by_cases hac : a = c
    · simp [index, hac]
    · have hca : ¬ c = a := fun h => hac h.symm
      simp [index, hac, hca, ih]

theorem index_some_split (s : CStr) (c : Char) (k : Nat) (h : index s c = some k) :
    ∃ mid suf, s = mid ++ c :: suf ∧ mid.length = k ∧ c ∉ mid := by
  induction s generalizing k with
  | nil => simp [index] at h
  | cons a rest ih =>
    by_cases hac : a = c
    · simp [index, hac] at h
      exact ⟨[], rest, by simp [hac], by simp [h], by simp⟩
    · simp only [index, hac, if_false, Option.map_eq_some'] at h
      obtain ⟨j, hj, hk⟩ := h
      obtain ⟨mid, suf, hs, hlen, hmem⟩ := ih j hj
      have hca : ¬ c = a := fun h => hac h.symm
      exact ⟨a :: mid, suf, by simp [hs], by simp [hlen, hk], by simp [hca, hmem]⟩

theorem replace_all_not_mem (old new : Char) (s : CStr) (h : old ∉ s) :
    replace_all old new s = s := by
  induction s with
  | nil => rfl
  | cons a rest ih =>
    have ha : ¬ a = old := fun e => h (by simp [e])
    have hr : old ∉ rest := fun m => h (List.mem_cons_of_mem _ m)
    have ih2 := ih hr
    simp only [replace_all] at ih2 ⊢
    simp [ha, ih2]

theorem replace_all_append (old new : Char) (a b : CStr) :
    replace_all old new (a ++ b) = replace_all old new a ++ replace_all old new b := by
  simp [replace_all]

theorem replace_all_cons_old (old new : Char) (s : CStr) :
    replace_all old new (old :: s) = new :: replace_all old new s := by
  simp [replace_all]

/-- The loop, entered with `ptr` at an occurrence of `old` that has no
occurrence before it, ends within one iteration per remaining character and
has then replaced every occurrence from `ptr` on. -/
theorem flip_loop_split (old new : Char) (fuel : Nat) (pre suf : CStr)
    (hf : suf.length < fuel) :
    flip_loop old new fuel (pre ++ old :: suf) pre.length
      = some (pre ++ new :: replace_all old new suf) := by
  induction fuel generalizing pre suf with
  | zero => omega
  | succ fuel ih =>
    have hset : (pre ++ old :: suf).set pre.length new = pre ++ new :: suf := by
      simp
    have hdrop : (pre ++ new :: suf).drop (pre.length + 1) = suf := by
      simp
    cases hidx : index suf old with
    | none =>
      have hmem : old ∉ suf := (index_none_iff suf old).1 hidx
      simp [flip_loop, hset, index_at, hdrop, hidx, replace_all_not_mem old new suf hmem]
    | some k =>
      obtain ⟨mid, suf2, hs, hlen, hmem⟩ := index_some_split suf old k hidx
      have hlt : suf2.length < fuel := by
        have : suf.length = mid.length + (suf2.length + 1) := by simp [hs]
        omega
      have hnext := ih (pre ++ new :: mid) suf2 hlt
      have hptr : (pre ++ new :: mid).length = k + (pre.length + 1) := by
        simp [hlen]; omega
      have hbuf : pre ++ new :: suf = (pre ++ new :: mid) ++ old :: suf2 := by
        simp [hs]
      simp only [flip_loop, hset, index_at, hdrop, hidx, Option.map_some']
      rw [hbuf, ← hptr, hnext, hs, replace_all_append, replace_all_cons_old,
        replace_all_not_mem old new mid hmem]
      simp

/-- Started at the first occurrence of `old`, with one iteration allowed per
character, the loop returns the name with every `old` replaced by `new`. -/
theorem flip_loop_total (old new : Char) (name : CStr) (ptr : Nat)
    (h : index name old = some ptr) :
    flip_loop old new name.length name ptr = some (replace_all old new name) := by
  obtain ⟨mid, suf, hs, hlen, hmem⟩ := index_some_split name old ptr h
  have hf : suf.length < name.length := by simp [hs]; omega
  have := flip_loop_split old new name.length mid suf hf
  rw [hlen, ← hs] at this
  rw [this, hs, replace_all_append, replace_all_cons_old, replace_all_not_mem old new mid hmem]

theorem index_isSome_iff (s : CStr) (c : Char) : (∃ k, index s c = some k) ↔ c ∈ s := by
  constructor
  · rintro ⟨k, hk⟩
    by_contra hn
    rw [(index_none_iff s c).2 hn] at hk
    cases hk
  · intro hm
    cases h : index s c with
    | none => exact absurd hm ((index_none_iff s c).1 h)
    | some k => exact ⟨k, rfl⟩

theorem mem_replace_all_new (old new : Char) (s : CStr) (h : old ∈ s) :
    new ∈ replace_all old new s := by
  simp only [replace_all, List.mem_map]
  exact ⟨old, h, by simp⟩

theorem not_mem_replace_all_old (old new : Char) (s : CStr) (hne : old ≠ new) :
    old ∉ replace_all old new s := by
  simp only [replace_all, List.mem_map, not_exists, not_and]
  intro c _ hc
  by_cases hco : c = old
  · rw [if_pos hco] at hc
    exact hne hc.symm
  · rw [if_neg hco] at hc
    exact hco hc

theorem replace_all_inv (old new : Char) (s : CStr) (h : new ∉ s) :
    replace_all new old (replace_all old new s) = s := by
  induction s with
  | nil => rfl
  | cons a rest ih =>
    have ha : ¬ a = new := fun e => h (by simp [e])
    have hr : new ∉ rest := fun m => h (List.mem_cons_of_mem _ m)
    have ih2 := ih hr
    simp only [replace_all, List.map_cons, List.map_map] at ih2 ⊢
    rw [ih2]
    by_cases hao : a = old
    · simp [hao]
    · simp [hao, ha]

theorem swap_spec_no_underscore (name : CStr) (h : '_' ∉ name) :
    swap_spec name = replace_all '-' '_' name := by
  induction name with
  | nil => rfl
  | cons a rest ih =>
    have ha : ¬ a = '_' := fun e => h (by simp [e])
    have hr : '_' ∉ rest := fun m => h (List.mem_cons_of_mem _ m)
    have ih2 := ih hr
    simp only [swap_spec, replace_all, List.map_cons] at ih2 ⊢
    rw [ih2]
    simp [ha]

theorem swap_spec_no_dash (name : CStr) (h : '-' ∉ name) :
    swap_spec name = replace_all '_' '-' name := by
  induction name with
  | nil => rfl
  | cons a rest ih =>
    have ha : ¬ a = '-' := fun e => h (by simp [e])
    have hr : '-' ∉ rest := fun m => h (List.mem_cons_of_mem _ m)
    have ih2 := ih hr
    simp only [swap_spec, replace_all, List.map_cons] at ih2 ⊢
    rw [ih2]
    simp [ha]

/-- The code's result, for every input: the loops end, and the alternate name
is `alt_name_of name`. -/
theorem enum_from_nick_eq (type : Option GEnumClass) (name : CStr) (d : Int) :
    gnc_enum_from_nick type name d = some (enum_from_nick_amended type name d) := by
  cases type with
  | none => rfl
  | some cls =>
    cases hreg : g_enum_get_value_by_nick cls name with
    | some e => simp [gnc_enum_from_nick, enum_from_nick_amended, registered, hreg]
    | none =>
      cases hdash : index name '-' with
      | some ptr =>
        have hmem : '-' ∈ name := (index_isSome_iff name '-').1 ⟨ptr, hdash⟩
        have hloop := flip_loop_total '-' '_' name ptr hdash
        simp only [gnc_enum_from_nick, enum_from_nick_amended, registered, hreg, g_strdup,
          hdash, hloop, alt_name_of, hmem, if_true, Option.map_some', Option.map_none',
          lookup_alt]
        cases g_enum_get_value_by_nick cls (replace_all '-' '_' name) <;> rfl
      | none =>
        have hnd : '-' ∉ name := (index_none_iff name '-').1 hdash
        cases hund : index name '_' with
        | some ptr =>
          have hmem : '_' ∈ name := (index_isSome_iff name '_').1 ⟨ptr, hund⟩
          have hloop := flip_loop_total '_' '-' name ptr hund
          simp only [gnc_enum_from_nick, enum_from_nick_amended, registered, hreg, g_strdup,
            hdash, hund, hloop, alt_name_of, hmem, hnd, if_true, if_false, Option.map_some',
            Option.map_none', lookup_alt]
          cases g_enum_get_value_by_nick cls (replace_all '_' '-' name) <;> rfl
        | none =>
          have hnu : '_' ∉ name := (index_none_iff name '_').1 hund
          simp [gnc_enum_from_nick, enum_from_nick_amended, registered, hreg, g_strdup,
            hdash, hund, alt_name_of, hnd, hnu]

/-- For a name that does not mix the two conventions the alternate name is the
specification's swap, so the code agrees with the specification's reading. -/
theorem enum_from_nick_unmixed (type : Option GEnumClass) (name : CStr) (d : Int)
    (h : ¬ ('-' ∈ name ∧ '_' ∈ name)) :
    gnc_enum_from_nick type name d = some (enum_from_nick_spec type name d) := by
  rw [enum_from_nick_eq]
  congr 1
  cases type with
  | none => rfl
  | some cls =>
    cases hreg : registered cls name with
    | some v => simp [enum_from_nick_amended, enum_from_nick_spec, hreg]
    | none =>
      by_cases hd : '-' ∈ name
      · have hu : '_' ∉ name := fun hu => h ⟨hd, hu⟩
        simp [enum_from_nick_amended, enum_from_nick_spec, hreg, alt_name_of, hd,
          swap_spec_no_underscore name hu]
      · by_cases hu : '_' ∈ name
        · simp [enum_from_nick_amended, enum_from_nick_spec, hreg, alt_name_of, hd, hu,
            swap_spec_no_dash name hd]
        · have hsw : swap_spec name = name := by
            rw [swap_spec_no_dash name hd, replace_all_not_mem _ _ _ hu]
          simp [enum_from_nick_amended, enum_from_nick_spec, hreg, alt_name_of, hd, hu, hsw]

theorem to_nick_of_value (cls : GEnumClass) (v : Int) (nick : CStr)
    (h : nick_of cls v = some nick) :
    gnc_enum_to_nick (some cls) v = .ok (some nick) := by
  cases hv : g_enum_get_value cls v with
  | none => simp [nick_of, hv] at h
  | some e =>
    simp only [nick_of, hv, Option.map_some', Option.some.injEq] at h
    simp [gnc_enum_to_nick, hv, h]

theorem to_nick_of_zero (cls : GEnumClass) (v : Int) (nick0 : CStr)
    (hv : nick_of cls v = none) (h0 : nick_of cls 0 = some nick0) :
    gnc_enum_to_nick (some cls) v = .ok (some nick0) := by
  cases hgv : g_enum_get_value cls v with
  | some e => simp [nick_of, hgv] at hv
  | none =>
    cases hg0 : g_enum_get_value cls 0 with
    | none => simp [nick_of, hg0] at h0
    | some e =>
      simp only [nick_of, hg0, Option.map_some', Option.some.injEq] at h0
      simp [gnc_enum_to_nick, hgv, hg0, h0]

theorem to_nick_null_only_unresolved (type : Option GEnumClass) (v : Int)
    (h : gnc_enum_to_nick type v = .ok none) : type = none := by
  cases type with
  | none => rfl
  | some cls =>
    exfalso
    simp only [gnc_enum_to_nick] at h
    cases hgv : g_enum_get_value cls v with
    | some e => simp [hgv] at h
    | none =>
      cases hg0 : g_enum_get_value cls 0 with
      | none => simp [hgv, hg0] at h
      | some e => simp [hgv, hg0] at h

/-! ## Enum utilities: C4, C5, C6 -/

/-- C4 as stated fails: with the single nickname "a_b-c" (value 5) registered,
the name "a-b_c" and the default 99, the full swap of the name is registered,
so the claim gives 5, but the code looks up "a_b_c" and returns the default. -/
theorem enum_from_nick_swap_counterexample :
    registered mixed_swapped_class "a-b_c".toList = none ∧
    swap_spec "a-b_c".toList = "a_b-c".toList ∧
    enum_from_nick_spec (some mixed_swapped_class) "a-b_c".toList 99 = 5 ∧
    alt_name_of "a-b_c".toList = some "a_b_c".toList ∧
    gnc_enum_from_nick (some mixed_swapped_class) "a-b_c".toList 99 = some 99 := by
  decide

/-- C4, amended: for every enum type, name and default, `gnc_enum_from_nick`
returns the value registered for the name if there is one; otherwise the value
registered for the alternate name, which is the name with every `-` replaced
by `_` when the name contains a `-`, and else the name with every `_` replaced
by `-` when it contains a `_`; otherwise, and when the type cannot be
resolved, the default. -/
theorem enum_from_nick_amended_correct (type : Option GEnumClass) (name : CStr) (d : Int) :
    gnc_enum_from_nick type name d = some (enum_from_nick_amended type name d) ∧
    gnc_enum_from_nick none name d = some d :=
  ⟨enum_from_nick_eq type name d, rfl⟩

/-- C5 as stated fails: "a-b_c" is registered (value 5) and contains a `-`;
converting every `-` to `_` gives "a_b_c", which is not registered; looking
that up returns the default 0 and not 5. -/
theorem enum_from_nick_round_trip_counterexample :
    registered mixed_class "a-b_c".toList = some 5 ∧
    '-' ∈ "a-b_c".toList ∧
    replace_all '-' '_' "a-b_c".toList = "a_b_c".toList ∧
    registered mixed_class "a_b_c".toList = none ∧
    gnc_enum_from_nick (some mixed_class) "a_b_c".toList 0 = some 0 ∧
    gnc_enum_from_nick (some mixed_class) "a-b_c".toList 0 = some 5 := by
  decide

/-- C5, amended: for a registered nickname `n` that contains `-` and no `_`
(respectively `_` and no `-`), if `n` with every `-` converted to `_`
(respectively every `_` to `-`) is not itself registered, looking the
converted name up gives the same result as looking `n` up, namely the value
registered for `n`. -/
theorem enum_from_nick_round_trip (cls : GEnumClass) (n : CStr) (v d : Int) (old new : Char)
    (hconv : (old = '-' ∧ new = '_') ∨ (old = '_' ∧ new = '-'))
    (hreg : registered cls n = some v)
    (hold : old ∈ n) (hnew : new ∉ n)
    (hnot : registered cls (replace_all old new n) = none) :
    gnc_enum_from_nick (some cls) (replace_all old new n) d
      = gnc_enum_from_nick (some cls) n d ∧
    gnc_enum_from_nick (some cls) n d = some v := by
  have hn : gnc_enum_from_nick (some cls) n d = some v := by
    rw [enum_from_nick_eq]
    simp [enum_from_nick_amended, hreg]
  refine ⟨?_, hn⟩
  rw [hn, enum_from_nick_eq]
  have hin : new ∈ replace_all old new n := mem_replace_all_new old new n hold
  have hback : replace_all new old (replace_all old new n) = n := replace_all_inv old new n hnew
  rcases hconv with ⟨ho, hn2⟩ | ⟨ho, hn2⟩
  · subst ho; subst hn2
    have hout : '-' ∉ replace_all '-' '_' n := not_mem_replace_all_old '-' '_' n (by decide)
    simp [enum_from_nick_amended, hnot, alt_name_of, hout, hin, hback, hreg]
  · subst ho; subst hn2
    simp [enum_from_nick_amended, hnot, alt_name_of, hin, hback, hreg]

/-- C5, amended, at the table with the nickname "a-b" (value 3), looked up as "a_b". -/
theorem enum_from_nick_round_trip_witness :
    registered dashed_class "a-b".toList = some 3 ∧
    gnc_enum_from_nick (some dashed_class) (replace_all '-' '_' "a-b".toList) 7
      = gnc_enum_from_nick (some dashed_class) "a-b".toList 7 ∧
    gnc_enum_from_nick (some dashed_class) "a-b".toList 7 = some 3 :=
  ⟨by decide,
   enum_from_nick_round_trip dashed_class "a-b".toList 3 7 '-' '_' (Or.inl ⟨rfl, rfl⟩)
     (by decide) (by decide) (by decide) (by decide)⟩

/-- C6 (the code departs from the claim): in the resolvable enum type with the
single symbol "one" (value 1), the value 2 has no symbol and neither has the
value 0, so the fallback lookup of line 58 returns NULL and line 60 reads
`enum_value->value_nick` through it; no nickname is returned, although the
enum has a first item, which the comment of line 57 says is used. -/
theorem enum_to_nick_null_dereference :
    nick_of no_zero_class 2 = none ∧ nick_of no_zero_class 0 = none ∧
    no_zero_class.head?.map (fun e => e.value_nick) = some "one".toList ∧
    gnc_enum_to_nick (some no_zero_class) 2 = .error Fault.null_dereference :=
  ⟨by decide, by decide, by decide, rfl⟩

/-- The extent of the departure of C6: for a resolvable enum type in which the
value `v` or the value 0 has a symbol, `gnc_enum_to_nick` returns the nickname
registered for `v` when `v` has a symbol and otherwise the nickname registered
for 0; for an unresolvable type it returns NULL, and it returns NULL only
then.  The fault is confined to types where neither `v` nor 0 has a symbol. -/
theorem enum_to_nick_defined (cls : GEnumClass) (v : Int)
    (h : nick_of cls v ≠ none ∨ nick_of cls 0 ≠ none) :
    (∃ nick, gnc_enum_to_nick (some cls) v = .ok (some nick) ∧
      (nick_of cls v = some nick ∨ (nick_of cls v = none ∧ nick_of cls 0 = some nick))) ∧
    gnc_enum_to_nick none v = .ok none ∧
    (∀ type, gnc_enum_to_nick type v = .ok none → type = none) := by
  refine ⟨?_, rfl, fun type ht => to_nick_null_only_unresolved type v ht⟩
  cases hv : nick_of cls v with
  | some nick => exact ⟨nick, to_nick_of_value cls v nick hv, Or.inl rfl⟩
  | none =>
    cases h0 : nick_of cls 0 with
    | none => simp [hv, h0] at h
    | some nick0 => exact ⟨nick0, to_nick_of_zero cls v nick0 hv h0, Or.inr ⟨rfl, rfl⟩⟩

/-- The fault occurs exactly when neither the value nor 0 has a symbol. -/
theorem enum_to_nick_fault_iff (cls : GEnumClass) (v : Int) :
    gnc_enum_to_nick (some cls) v = .error Fault.null_dereference ↔
      (nick_of cls v = none ∧ nick_of cls 0 = none) := by
  cases hgv : g_enum_get_value cls v with
  | some e => simp [gnc_enum_to_nick, nick_of, hgv]
  | none =>
    cases hg0 : g_enum_get_value cls 0 with
    | some e => simp [gnc_enum_to_nick, nick_of, hgv, hg0]
    | none => simp [gnc_enum_to_nick, nick_of, hgv, hg0]

/-- The defined case at a table with symbols for 0 and 1 and the value 7. -/
theorem enum_to_nick_defined_example :
    (nick_of with_zero_class 7 ≠ none ∨ nick_of with_zero_class 0 ≠ none) ∧
    (∃ nick, gnc_enum_to_nick (some with_zero_class) 7 = .ok (some nick) ∧
      (nick_of with_zero_class 7 = some nick ∨
        (nick_of with_zero_class 7 = none ∧ nick_of with_zero_class 0 = some nick))) :=
  ⟨Or.inr (by decide), (enum_to_nick_defined with_zero_class 7 (Or.inr (by decide))).1⟩

/-! ## Bulk unset: C7 -/

theorem printf_unset_failure (key msg : CStr) :
    g_strdup_printf "Failed to unset key %s: %s".toList [key, msg]
      = "Failed to unset key ".toList ++ key ++ ": ".toList ++ msg := by
  simp [g_strdup_printf]

theorem make_key_section_only (section_ : CStr) :
    gnc_gconf_make_key (some section_) none = some (gnc_gconf_section_name section_) := by
  by_cases hs : section_.head? = some '/'
  · simp [gnc_gconf_make_key, (deref_eq_slash_iff section_).2 hs, section_name_abs section_ hs,
      g_strdup]
  · have hd : ¬ deref section_ = '/' := fun hd => hs ((deref_eq_slash_iff section_).1 hd)
    simp [gnc_gconf_make_key, hd]

theorem remove_keys_cons (values : List GConfEntry) (k : CStr) (ks : List CStr) :
    remove_keys (values.filter (fun e => decide (e.key ≠ k))) ks = remove_keys values (k :: ks) := by
  simp only [remove_keys, List.filter_filter]
  apply List.filter_congr
  intro e _
  by_cases h1 : e.key = k <;> by_cases h2 : e.key ∈ ks <;> simp [h1, h2]

theorem remove_keys_nil (values : List GConfEntry) : remove_keys values [] = values := by
  simp [remove_keys]

/-- The loop: its trace of unset calls, the store content, the output and the
caller's slot, for every list of entries and every state. -/
theorem unset_loop_spec (ce : Option (Option GError)) (entries : List GConfEntry) (w : World) :
    (unset_loop ce entries w).1.client.unset_calls
      = w.client.unset_calls ++ attempted_keys w.client.unset_reply entries ∧
    (unset_loop ce entries w).1.client.values
      = remove_keys w.client.values (unset_ok_keys w.client.unset_reply entries) ∧
    (unset_loop ce entries w).1.stdout
      = w.stdout ++ expected_log ce (first_failure w.client.unset_reply entries) ∧
    (unset_loop ce entries w).2
      = expected_slot ce (first_failure w.client.unset_reply entries) := by
  induction entries generalizing w with
  | nil =>
    cases ce <;>
      simp [unset_loop, attempted_keys, unset_ok_keys, first_failure, expected_log,
        expected_slot, remove_keys_nil]
  | cons e rest ih =>
    cases hr : w.client.unset_reply e.key with
    | none =>
      have step : unset_loop ce (e :: rest) w
          = unset_loop ce rest { w with client :=
              { w.client with values := w.client.values.filter (fun x => decide (x.key ≠ e.key)),
                              unset_calls := w.client.unset_calls ++ [e.key] } } := by
        simp [unset_loop, gconf_client_unset, hr]
      rw [step]
      obtain ⟨h1, h2, h3, h4⟩ := ih { w with client :=
              { w.client with values := w.client.values.filter (fun x => decide (x.key ≠ e.key)),
                              unset_calls := w.client.unset_calls ++ [e.key] } }
      simp only at h1 h2 h3 h4
      refine ⟨?_, ?_, ?_, ?_⟩
      · rw [h1]
        simp [attempted_keys, unset_ok_keys, first_failure, hr]
      · rw [h2, remove_keys_cons]
        simp [unset_ok_keys, hr]
      · rw [h3]
        simp [first_failure, hr]
      · rw [h4]
        simp [first_failure, hr]
    | some err =>
      cases ce with
      | none =>
        simp [unset_loop, gconf_client_unset, hr, report_error, printf, g_strdup_printf,
          attempted_keys, unset_ok_keys, first_failure, expected_log, expected_slot,
          remove_keys_nil]
      | some slot =>
        simp [unset_loop, gconf_client_unset, hr, report_error,
          attempted_keys, unset_ok_keys, first_failure, expected_log, expected_slot,
          remove_keys_nil]

/-- C7: when the store returns the entries k1..kn for the section,
`gnc_gconf_unset_dir` calls unset on exactly the keys up to and including the
first one whose unset fails (all of them if none fails), in list order; the
keys before it are removed from the store; and the error of the failing key
is propagated to the caller's slot when one was supplied and printed
otherwise. -/
theorem unset_dir_aborts_on_first_failure (section_ : CStr) (ce : Option (Option GError))
    (w : World) (entries : List GConfEntry)
    (hfetch : gconf_client_all_entries w.client (gnc_gconf_section_name section_)
      = (entries, none)) :
    ∃ w2 ce2, gnc_gconf_unset_dir (some section_) ce w = some (w2, ce2) ∧
      w2.client.unset_calls
        = w.client.unset_calls ++ attempted_keys w.client.unset_reply entries ∧
      w2.client.values
        = remove_keys w.client.values (unset_ok_keys w.client.unset_reply entries) ∧
      w2.stdout = w.stdout ++ expected_log ce (first_failure w.client.unset_reply entries) ∧
      ce2 = expected_slot ce (first_failure w.client.unset_reply entries) := by
  have hrun : gnc_gconf_unset_dir (some section_) ce w
      = some (unset_loop ce entries { w with our_client_set := true }) := by
    simp only [gnc_gconf_unset_dir, make_key_section_only]
    rw [hfetch]
  obtain ⟨h1, h2, h3, h4⟩ := unset_loop_spec ce entries { w with our_client_set := true }
  exact ⟨_, _, hrun, h1, h2, h3, h4⟩

/-- C7, at the store with keys A, B, C under "/a" where the unset of B fails. -/
theorem unset_dir_aborts_on_first_failure_witness :
    gconf_client_all_entries abc_world.client (gnc_gconf_section_name "/a".toList)
      = (abc_entries, none) ∧
    ∃ w2 ce2, gnc_gconf_unset_dir (some "/a".toList) (some none) abc_world = some (w2, ce2) ∧
      w2.client.unset_calls
        = abc_world.client.unset_calls
          ++ attempted_keys abc_world.client.unset_reply abc_entries ∧
      w2.client.values
        = remove_keys abc_world.client.values
            (unset_ok_keys abc_world.client.unset_reply abc_entries) ∧
      w2.stdout = abc_world.stdout
        ++ expected_log (some none) (first_failure abc_world.client.unset_reply abc_entries) ∧
      ce2 = expected_slot (some none)
        (first_failure abc_world.client.unset_reply abc_entries) :=
  ⟨rfl, unset_dir_aborts_on_first_failure "/a".toList (some none) abc_world abc_entries rfl⟩

/-- The A, B, C scenario evaluated: unset is called on A and B only, A is gone
from the store while B and C are still there, and the error of B is in the
caller's slot, or printed when there is no slot. -/
theorem unset_dir_abc :
    attempted_keys abc_world.client.unset_reply abc_entries = ["/a/A".toList, "/a/B".toList] ∧
    (gnc_gconf_unset_dir (some "/a".toList) (some none) abc_world).map
        (fun r => (r.1.client.unset_calls, r.1.client.values, r.1.stdout, r.2))
      = some (["/a/A".toList, "/a/B".toList],
          [⟨"/a/B".toList, "2".toList⟩, ⟨"/a/C".toList, "3".toList⟩], [],
          some (some ⟨"locked".toList⟩)) ∧
    (gnc_gconf_unset_dir (some "/a".toList) none abc_world).map
        (fun r => (r.1.client.unset_calls, r.1.client.values, r.1.stdout, r.2))
      = some (["/a/A".toList, "/a/B".toList],
          [⟨"/a/B".toList, "2".toList⟩, ⟨"/a/C".toList, "3".toList⟩],
          ["Failed to unset key /a/B: locked".toList], none) :=
  ⟨by decide, by decide, by decide⟩

/-! ## Notification registration: C8 -/

theorem client_tag_eq (section_ : CStr) :
    g_strdup_printf CLIENT_TAG [section_] = section_ ++ "-client".toList := by
  simp [CLIENT_TAG, g_strdup_printf]

theorem notify_tag_eq (section_ : CStr) :
    g_strdup_printf NOTIFY_TAG [section_] = section_ ++ "-notify_id".toList := by
  simp [NOTIFY_TAG, g_strdup_printf]

theorem tags_differ (section_ : CStr) :
    section_ ++ "-client".toList ≠ section_ ++ "-notify_id".toList := by
  intro h
  have := List.append_cancel_left h
  revert this
  decide

/-- A successful registration, step by step. -/
theorem add_notification_success (object : Nat) (section_ : CStr) (callback : Nat) (s : NState)
    (hdir : s.add_dir_reply (gnc_gconf_section_name section_) = none)
    (hsub : s.notify_add_reply (gnc_gconf_section_name section_) = none) :
    gnc_gconf_add_notification (some object) (some section_) (some callback) s =
      { s with
        object_data :=
          ((object, section_ ++ "-notify_id".toList), Pointer.uint (s.next_id + 1)) ::
            (((object, section_ ++ "-client".toList), Pointer.client) ::
              s.object_data.filter
                (fun e => decide (e.1 ≠ (object, section_ ++ "-client".toList)))).filter
              (fun e => decide (e.1 ≠ (object, section_ ++ "-notify_id".toList)))
        dirs := gnc_gconf_section_name section_ :: s.dirs
        notifies := (s.next_id + 1, gnc_gconf_section_name section_) :: s.notifies
        next_id := s.next_id + 1
        refs := s.refs + 1
        calls := s.calls ++ [StoreCall.add_dir (gnc_gconf_section_name section_),
          StoreCall.notify_add (gnc_gconf_section_name section_)] } := by
  simp [gnc_gconf_add_notification, gconf_client_get_default, gconf_client_add_dir, hdir,
    gconf_client_notify_add, hsub, client_tag_eq, notify_tag_eq, g_object_set_data,
    GUINT_TO_POINTER]

/-- A removal that finds a handle under the client tag: the three store calls
are made with the id found under the notify tag, and the per-object table is
not written. -/
theorem remove_notification_found (object : Nat) (section_ : CStr) (s : NState) (p : Pointer)
    (hfound : g_object_get_data s object (section_ ++ "-client".toList) = some p) :
    gnc_gconf_remove_notification (some object) (some section_) s =
      { s with
        notifies := s.notifies.filter (fun n => decide (n.1 ≠
          GPOINTER_TO_UINT (g_object_get_data s object (section_ ++ "-notify_id".toList))))
        dirs := s.dirs.erase (gnc_gconf_section_name section_)
        refs := s.refs - 1
        calls := s.calls ++ [StoreCall.notify_remove
            (GPOINTER_TO_UINT (g_object_get_data s object (section_ ++ "-notify_id".toList))),
          StoreCall.remove_dir (gnc_gconf_section_name section_), StoreCall.unref] } := by
  simp only [gnc_gconf_remove_notification, client_tag_eq, notify_tag_eq, hfound]
  simp [gconf_client_notify_remove, gconf_client_remove_dir, g_object_unref]

/-- A removal that finds nothing under the client tag changes nothing. -/
theorem remove_notification_absent (object : Nat) (section_ : CStr) (s : NState)
    (habsent : g_object_get_data s object (section_ ++ "-client".toList) = none) :
    gnc_gconf_remove_notification (some object) (some section_) s = s := by
  simp only [gnc_gconf_remove_notification, client_tag_eq, habsent]

theorem get_data_congr (s t : NState) (h : t.object_data = s.object_data) (object : Nat)
    (key : CStr) : g_object_get_data t object key = g_object_get_data s object key := by
  simp [g_object_get_data, h]

theorem find_after_two_sets (data : List ((Nat × CStr) × Pointer)) (object : Nat)
    (k1 k2 : CStr) (p1 p2 : Pointer) (h : k1 ≠ k2) :
    ((((object, k2), p2) ::
        (((object, k1), p1) :: data.filter (fun e => decide (e.1 ≠ (object, k1)))).filter
          (fun e => decide (e.1 ≠ (object, k2)))).find?
        (fun e => decide (e.1 = (object, k1)))).map (fun e => e.2) = some p1 ∧
    ((((object, k2), p2) ::
        (((object, k1), p1) :: data.filter (fun e => decide (e.1 ≠ (object, k1)))).filter
          (fun e => decide (e.1 ≠ (object, k2)))).find?
        (fun e => decide (e.1 = (object, k2)))).map (fun e => e.2) = some p2 := by
  have h2 : ¬ k2 = k1 := fun e => h e.symm
  constructor
  · simp [List.find?, List.filter, h, h2]
  · simp [List.find?]

theorem filter_fresh_id (notifies : List (Nat × CStr)) (next_id : Nat)
    (hfresh : ∀ n ∈ notifies, n.1 ≤ next_id) :
    notifies.filter (fun n => decide (n.1 ≠ next_id + 1)) = notifies := by
  rw [List.filter_eq_self]
  intro n hn
  have := hfresh n hn
  simp
  omega

/-- C8 as stated fails: starting from `busy_state`, listener 7 registers for
"general" successfully and removes the registration; the handle is still
stored under "general-client", and a second removal issues notify-remove,
remove-dir and a handle release again, dropping the watch another
registration holds on the directory. -/
theorem remove_notification_counterexample :
    busy_added.notifies = [(1, "/apps/gnucash/general".toList)] ∧
    g_object_get_data busy_removed 7 "general-client".toList = some Pointer.client ∧
    ¬ no_side_table_entry busy_removed 7 "general".toList ∧
    busy_removed.dirs = ["/apps/gnucash/general".toList] ∧
    busy_removed_twice.dirs = [] ∧
    observable busy_removed_twice ≠ observable busy_removed ∧
    busy_removed_twice.calls = busy_removed.calls ++
      [StoreCall.notify_remove 1, StoreCall.remove_dir "/apps/gnucash/general".toList,
        StoreCall.unref] := by
  refine ⟨by decide, by decide, ?_, by decide, by decide, by decide, by decide⟩
  unfold no_side_table_entry
  decide

/-- C8, amended: after a successful `gnc_gconf_add_notification` (state `s1`),
`gnc_gconf_remove_notification` with the same listener and section (state
`s2`) cancels the subscription, drops the directory watch and releases the
handle, so that the store's subscriptions, watched directories and the
handle's reference count are what they were before the registration; it does
not write the per-listener table, where both tags stay; and a second removal
with the same arguments (state `s3`) again issues notify-remove, remove-dir
and a handle release. -/
theorem add_then_remove_notification (object : Nat) (section_ : CStr) (callback : Nat)
    (s s1 s2 s3 : NState)
    (hdir : s.add_dir_reply (gnc_gconf_section_name section_) = none)
    (hsub : s.notify_add_reply (gnc_gconf_section_name section_) = none)
    (hfresh : ∀ n ∈ s.notifies, n.1 ≤ s.next_id)
    (h1 : s1 = gnc_gconf_add_notification (some object) (some section_) (some callback) s)
    (h2 : s2 = gnc_gconf_remove_notification (some object) (some section_) s1)
    (h3 : s3 = gnc_gconf_remove_notification (some object) (some section_) s2) :
    g_object_get_data s1 object (section_ ++ "-client".toList) = some Pointer.client ∧
    g_object_get_data s1 object (section_ ++ "-notify_id".toList)
      = some (Pointer.uint (s.next_id + 1)) ∧
    s2.calls = s1.calls ++ [StoreCall.notify_remove (s.next_id + 1),
      StoreCall.remove_dir (gnc_gconf_section_name section_), StoreCall.unref] ∧
    s2.notifies = s.notifies ∧ s2.dirs = s.dirs ∧ s2.refs = s.refs ∧
    s2.object_data = s1.object_data ∧
    g_object_get_data s2 object (section_ ++ "-client".toList) = some Pointer.client ∧
    g_object_get_data s2 object (section_ ++ "-notify_id".toList)
      = some (Pointer.uint (s.next_id + 1)) ∧
    s3.calls = s2.calls ++ [StoreCall.notify_remove (s.next_id + 1),
      StoreCall.remove_dir (gnc_gconf_section_name section_), StoreCall.unref] ∧
    s3.refs = s2.refs - 1 := by
  have hadd := add_notification_success object section_ callback s hdir hsub
  rw [← h1] at hadd
  obtain ⟨hc1, hn1⟩ := find_after_two_sets s.object_data object
    (section_ ++ "-client".toList) (section_ ++ "-notify_id".toList)
    Pointer.client (Pointer.uint (s.next_id + 1)) (tags_differ section_)
  have hgc1 : g_object_get_data s1 object (section_ ++ "-client".toList)
      = some Pointer.client := by
    rw [g_object_get_data, hadd]; exact hc1
  have hgn1 : g_object_get_data s1 object (section_ ++ "-notify_id".toList)
      = some (Pointer.uint (s.next_id + 1)) := by
    rw [g_object_get_data, hadd]; exact hn1
  have hrem := remove_notification_found object section_ s1 Pointer.client hgc1
  rw [← h2, hgn1] at hrem
  have hod : s2.object_data = s1.object_data := by rw [hrem]
  have hgc2 : g_object_get_data s2 object (section_ ++ "-client".toList)
      = some Pointer.client := by
    rw [get_data_congr s1 s2 hod]; exact hgc1
  have hgn2 : g_object_get_data s2 object (section_ ++ "-notify_id".toList)
      = some (Pointer.uint (s.next_id + 1)) := by
    rw [get_data_congr s1 s2 hod]; exact hgn1
  have hrem2 := remove_notification_found object section_ s2 Pointer.client hgc2
  rw [← h3, hgn2] at hrem2
  refine ⟨hgc1, hgn1, ?_, ?_, ?_, ?_, hod, hgc2, hgn2, ?_, ?_⟩
  · rw [hrem]; simp [GPOINTER_TO_UINT]
  · rw [hrem, hadd]
    simp only [GPOINTER_TO_UINT, List.filter_cons]
    simp only [ne_eq, not_true_eq_false, decide_False, Bool.false_eq_true, if_false]
    exact filter_fresh_id s.notifies s.next_id hfresh
  · rw [hrem, hadd]; simp
  · rw [hrem, hadd]; simp
  · rw [hrem2]; simp [GPOINTER_TO_UINT]
  · rw [hrem2]

/-- C8, amended, at `busy_state` with listener 7 and the section "general". -/
theorem add_then_remove_notification_witness :
    busy_state.add_dir_reply (gnc_gconf_section_name "general".toList) = none ∧
    busy_state.notify_add_reply (gnc_gconf_section_name "general".toList) = none ∧
    (∀ n ∈ busy_state.notifies, n.1 ≤ busy_state.next_id) ∧
    busy_removed.notifies = busy_state.notifies ∧
    busy_removed.dirs = busy_state.dirs ∧
    busy_removed.object_data = busy_added.object_data ∧
    busy_removed_twice.refs = busy_removed.refs - 1 :=
  have h := add_then_remove_notification 7 "general".toList 1 busy_state busy_added
    busy_removed busy_removed_twice rfl rfl (by decide) rfl rfl rfl
  ⟨rfl, rfl, by decide, h.2.2.2.1, h.2.2.2.2.1, h.2.2.2.2.2.2.1, h.2.2.2.2.2.2.2.2.2.2⟩

/-! ## Key paths: the scope of the two departures -/

theorem char_eq_of_toNat_eq (a b : Char) (h : a.toNat = b.toNat) : a = b := by
  rw [← Char.ofNat_toNat a, ← Char.ofNat_toNat b, h]

theorem char_toNat_ne_zero (a : Char) (h : a ≠ NUL) : (a.toNat : Int) ≠ 0 := by
  intro h0
  apply h
  apply char_eq_of_toNat_eq
  have : a.toNat = 0 := by exact_mod_cast h0
  rw [this]
  rfl

/-- Comparing one character more than the length of `b`, the terminator is
part of the comparison: `strncmp` is 0 only for equal strings. -/
theorem strncmp_sizeof_eq_zero_iff (b a : CStr) (ha : NUL ∉ a) (hb : NUL ∉ b) :
    strncmp a b (b.length + 1) = 0 ↔ a = b := by
  induction b generalizing a with
  | nil =>
    cases a with
    | nil => simp [strncmp]
    | cons x rest =>
      have hx : x ≠ NUL := fun e => ha (by simp [e])
      simp [strncmp, char_toNat_ne_zero x hx]
  | cons y bs ih =>
    have hy : y ≠ NUL := fun e => hb (by simp [e])
    have hbs : NUL ∉ bs := fun m => hb (List.mem_cons_of_mem _ m)
    cases a with
    | nil => simp [strncmp, char_toNat_ne_zero y hy]
    | cons x rest =>
      have hrest : NUL ∉ rest := fun m => ha (List.mem_cons_of_mem _ m)
      by_cases hxy : x = y
      · simp [strncmp, hxy, ih rest hrest hbs]
      · have hne : (x.toNat : Int) - (y.toNat : Int) ≠ 0 := by
          intro h0
          apply hxy
          apply char_eq_of_toNat_eq
          omega
        simp [strncmp, hxy, hne]

/-- The extent of the departure of C3: `gnc_gconf_schema_section_name` returns
its argument unchanged only for the exact string "/schemas"; every other name,
also one that starts with "/schemas", gets the schema root prefixed. -/
theorem schema_section_name_eq (name : CStr) (hnul : NUL ∉ name) :
    gnc_gconf_schema_section_name name =
      if name = "/schemas".toList then name else "/schemas/apps/gnucash/".toList ++ name := by
  have hlit : NUL ∉ SCHEMAS := by decide
  have hiff := strncmp_sizeof_eq_zero_iff SCHEMAS name hnul hlit
  have hfmt : g_strdup_printf (SCHEMAS ++ APP_GNUCASH) [name]
      = "/schemas/apps/gnucash/".toList ++ name := by
    simp [SCHEMAS, APP_GNUCASH, g_strdup_printf]
  by_cases h : name = SCHEMAS
  · have h0 : strncmp name SCHEMAS (sizeof_lit SCHEMAS) = 0 := hiff.2 h
    have h2 : name = "/schemas".toList := h
    rw [gnc_gconf_schema_section_name, if_pos h0, if_pos h2, g_strdup]
  · have h0 : ¬ strncmp name SCHEMAS (sizeof_lit SCHEMAS) = 0 := fun e => h (hiff.1 e)
    have h2 : ¬ name = "/schemas".toList := h
    rw [gnc_gconf_schema_section_name, if_neg h0, if_neg h2, hfmt]

theorem hasDoubleSlash_cons (c : Char) (s : CStr) :
    hasDoubleSlash (c :: s) = ((c == '/' && s.head? == some '/') || hasDoubleSlash s) := by
  cases s with
  | nil => simp [hasDoubleSlash]
  | cons d rest => simp [hasDoubleSlash]

theorem hasDoubleSlash_append (a b : CStr) :
    hasDoubleSlash (a ++ b) =
      (hasDoubleSlash a || hasDoubleSlash b ||
        (a.getLast? == some '/' && b.head? == some '/')) := by
  induction a with
  | nil => simp [hasDoubleSlash]
  | cons c rest ih =>
    cases rest with
    | nil =>
      cases hb : hasDoubleSlash b <;> simp [hasDoubleSlash_cons, hb, hasDoubleSlash]
    | cons d rest2 =>
      have e : (c :: d :: rest2) ++ b = c :: ((d :: rest2) ++ b) := rfl
      rw [e, hasDoubleSlash_cons c ((d :: rest2) ++ b), ih, hasDoubleSlash_cons c (d :: rest2)]
      simp only [List.cons_append, List.head?_cons, List.getLast?_cons_cons]
      cases (c == '/' && (some d == some '/')) <;> simp

theorem join_slash_no_double (a b : CStr) (ha : hasDoubleSlash a = false)
    (hb : hasDoubleSlash b = false) (hend : a.getLast? ≠ some '/')
    (hhead : b.head? ≠ some '/') :
    hasDoubleSlash (a ++ ['/'] ++ b) = false := by
  rw [hasDoubleSlash_append, hasDoubleSlash_append, ha, hb]
  simp [hasDoubleSlash, hend, hhead]

/-- The extent of the departure of C10: under the claim's conditions, the key
has no double slash whenever the section is absolute or the name does not
start with `/`; only a relative section with a name starting with `/` is
joined into a double slash. -/
theorem make_key_no_double_slash (section_ name : CStr)
    (hs : section_ ≠ []) (hds : hasDoubleSlash section_ = false)
    (hdn : hasDoubleSlash name = false) (hend : section_.getLast? ≠ some '/')
    (hcase : section_.head? = some '/' ∨ name.head? ≠ some '/') :
    ∃ key, gnc_gconf_make_key (some section_) (some name) = some key ∧
      hasDoubleSlash key = false := by
  by_cases habs : section_.head? = some '/'
  · by_cases hn : name.head? = some '/'
    · refine ⟨section_ ++ name, ?_, ?_⟩
      · simp [gnc_gconf_make_key, (deref_eq_slash_iff section_).2 habs,
          (deref_eq_slash_iff name).2 hn, strjoin_two]
      · rw [hasDoubleSlash_append, hds, hdn]
        simp [hend]
    · have hd : ¬ deref name = '/' := fun hd => hn ((deref_eq_slash_iff name).1 hd)
      refine ⟨section_ ++ ['/'] ++ name, ?_, join_slash_no_double _ _ hds hdn hend hn⟩
      simp [gnc_gconf_make_key, (deref_eq_slash_iff section_).2 habs, hd, strjoin_two]
  · have hn : name.head? ≠ some '/' := hcase.resolve_left habs
    have hd : ¬ deref section_ = '/' := fun hd => habs ((deref_eq_slash_iff section_).1 hd)
    refine ⟨APP_ROOT ++ (section_ ++ ['/'] ++ name), ?_, ?_⟩
    · simp [gnc_gconf_make_key, hd, strjoin_two, section_name_rel section_ habs]
    · have hroot : hasDoubleSlash APP_ROOT = false := by decide
      rw [hasDoubleSlash_append, hroot, join_slash_no_double _ _ hds hdn hend hn]
      simp [habs, hs]

end GncGConf
